import Mathlib

/-
  Verification of evalgo-org/basexservice against its specification.

  The embedding below models src/cmd/basexservice/semantic_api.go (the
  current handler file; src/unnamed/part_000 .. part_002 are historical
  drafts of the same file and are superseded by it).  IO is modelled by
  explicit oracles: every outbound HTTP call takes the response it will
  receive as a parameter and records the request it issued in an event
  trace; file reads and the results of the external eve.evalgo.org/semantic
  extraction helpers are supplied through an `Env` record.  Functions of
  the eve semantic library that are not part of this repository's sources
  are modelled from the spec and marked as such in their doc comments.
-/

namespace Basex

/-- Generic JSON values, as produced by Go's encoding/json into
`map[string]interface{}` / `[]interface{}`.  Numeric payloads are never
inspected by the code under verification, so their float64 semantics are
not modelled beyond carrying an integer tag. -/
inductive Json where
  | null
  | bool (b : Bool)
  | num (n : Int)
  | str (s : String)
  | arr (xs : List Json)
  | obj (fields : List (String × Json))

/-- Lookup of a key in a decoded JSON object (Go map indexing).  Decoded
maps have no duplicate keys, so taking the first match is exact. -/
def jsonField (k : String) (fields : List (String × Json)) : Option Json :=
  (fields.find? (fun p => p.fst == k)).map Prod.snd

/-- Lookup in a string-to-string map. -/
def lookupStr (k : String) (m : List (String × String)) : Option String :=
  (m.find? (fun p => p.fst == k)).map Prod.snd

inductive HttpMethod where
  | GET | PUT | POST | DELETE
deriving DecidableEq

/-- An outbound HTTP request to the BaseX REST interface, as assembled by
the client functions in semantic_api.go. -/
structure HttpRequest where
  method : HttpMethod
  url : String
  contentType : Option String
  body : Option String
  auth : Option (String × String)
deriving DecidableEq

/-- The request sent to the object-store gateway (s3service) by
`downloadFromS3`: an HTTP POST whose payload is the marshalled
DownloadAction document, kept here in structured form. -/
structure S3Request where
  url : String
  contentType : String
  action : Json

/-- An observable side effect of a handler run. -/
inductive Event where
  | basex (req : HttpRequest)
  | s3 (req : S3Request)
  | removeFile (path : String)

/-- A downstream HTTP response, supplied by the environment. -/
structure HttpResponse where
  status : Nat
  body : String
deriving DecidableEq

/-- A file read by `uploadFileToBaseX`: its raw bytes together with the
result of `json.Unmarshal` on them (`none` when the bytes are not valid
JSON). -/
structure FileContent where
  raw : String
  parsed : Option Json

/-- The embedded `object` sub-document of a semantic action
(eve library struct; fields as used by semantic_api.go and described in
spec section 3). -/
structure SemanticObject where
  type : String
  identifier : String
  contentUrl : String
  encodingFormat : String
  codeRepository : String
  url : String
  username : String
  password : String

/-- The eve library's XMLDatabase value (spec section 3, DatabaseTarget):
database name, network address and optional embedded credentials. -/
structure XMLDatabase where
  type : String
  identifier : String
  url : String
  username : String
  password : String
  additionalProperty : List (String × String)

/-- The result sub-document attached by the query handler
(semantic_api.go lines 122-127). -/
structure SemanticResult where
  type : String
  format : String
  output : String

/-- The normalized semantic action (spec section 3): a type discriminator,
an opaque identifier, the parsed `object` sub-document, the raw property
bag, and the mutable response fields (actionStatus / error / result). -/
structure SemanticAction where
  type : String
  identifier : String
  object : Option SemanticObject
  properties : List (String × Json)
  actionStatus : Option String
  error : Option String
  result : Option SemanticResult

/-- Oracle environment for one request: results of the external
eve-library extraction helpers, file reads, environment variables and the
downstream responses.  Each handler makes at most one BaseX call, which
receives `basexResp`; the upload handler's object-store call receives
`s3Resp` / `s3Json` (the latter being the `json.Decode` of the response
body into a map, failing when the body is not a JSON object). -/
structure Env where
  xslt : Except String SemanticObject
  database : Except String XMLDatabase
  xmlDoc : Except String SemanticObject
  query : String
  targetUrl : String
  xsltFile : Except String String
  uploadFile : Except String FileContent
  basexResp : HttpResponse
  s3Resp : HttpResponse
  s3Json : Except String (List (String × Json))
  hetznerS3URL : String
  hetznerS3Region : String
  hetznerS3AccessKey : String
  hetznerS3SecretKey : String
  s3ServiceURL : String

/-- What a handler hands back to echo: the HTTP status code, the action
document serialized as the response body, and the trace of side effects
it performed. -/
structure HandlerResult where
  httpStatus : Nat
  action : SemanticAction
  trace : List Event

/-! ### String helpers mirroring the Go standard library -/

/-- The filename-extraction loop of `uploadXSLTToBaseX` (semantic_api.go
lines 328-337): everything after the last slash, the whole string when
there is no slash. -/
def lastComponent (s : String) : String :=
  String.mk (s.data.foldl (fun acc c => if c = '/' then [] else acc ++ [c]) [])

/-- Go `path/filepath.Base`: empty string gives ".", trailing slashes are
stripped, all-slash strings give "/", otherwise the last path element. -/
def goFilepathBase (s : String) : String :=
  if s = "" then "."
  else
    let cs := (s.data.reverse.dropWhile (fun c => c = '/')).reverse
    if cs = [] then "/"
    else String.mk (cs.foldl (fun acc c => if c = '/' then [] else acc ++ [c]) [])

/-- Helper for `strings.SplitN(s, "/", 2)`: split at the first slash;
`none` when the string has no slash (in which case SplitN returns a single
part and the `len(parts) != 2` guard in `downloadFromS3` fires). -/
def splitCharsAtSlash : List Char → Option (List Char × List Char)
  | [] => none
  | c :: rest =>
    if c = '/' then some ([], rest)
    else
      match splitCharsAtSlash rest with
      | none => none
      | some (a, b) => some (c :: a, b)

/-- `strings.SplitN(s, "/", 2)` reduced to its two-part form. -/
def splitFirstSlash (s : String) : Option (String × String) :=
  match splitCharsAtSlash s.data with
  | none => none
  | some (a, b) => some (String.mk a, String.mk b)

/-- `strings.HasPrefix(s, "s3://")`, implemented on the character list so
that it evaluates by kernel reduction. -/
def startsWithS3 (s : String) : Bool :=
  match s.data with
  | 's' :: '3' :: ':' :: '/' :: '/' :: _ => true
  | _ => false

/-- `strings.TrimPrefix(s, "s3://")`. -/
def trimS3Prefix (s : String) : String :=
  if startsWithS3 s then String.mk (s.data.drop 5) else s

/-! ### Modelled eve-library helpers (not under src/) -/

/-- Modelled from the spec (section 4.1): `semantic.ExtractDatabaseCredentials`
of the eve library, which is not under src/.  Given a DatabaseTarget it
returns (baseAddress, username, password); it fails with MissingTargetError
when the target is nil and with MissingCredentialsError when no address can
be resolved; credentials come from the top-level fields first and from the
additional-properties mapping otherwise. -/
def ExtractDatabaseCredentials (db : Option XMLDatabase) :
    Except String (String × String × String) :=
  match db with
  | none => Except.error "MissingTargetError: target database is nil"
  | some d =>
    if d.url = "" then Except.error "MissingCredentialsError: no database address"
    else
      let username := if d.username = "" then (lookupStr "username" d.additionalProperty).getD "" else d.username
      let password := if d.password = "" then (lookupStr "password" d.additionalProperty).getD "" else d.password
      Except.ok (d.url, username, password)

/-- Modelled from the spec (sections 4.5 and 7): `semantic.ReturnActionError`
of the eve library, which is not under src/.  It attaches
`actionStatus = FailedActionStatus` and an error description built from the
message and the wrapped cause, and returns the action document as the HTTP
body with outer status 200. -/
def ReturnActionError (action : SemanticAction) (message : String)
    (cause : Option String) (trace : List Event) : HandlerResult :=
  { httpStatus := 200
  , action := { action with
                  actionStatus := some "FailedActionStatus"
                , error := some (message ++ (match cause with
                    | some e => ": " ++ e
                    | none => "")) }
  , trace := trace }

/-- Modelled from the spec (section 4.5): `semantic.SetSuccessOnAction` of
the eve library, which is not under src/: sets
`actionStatus = CompletedActionStatus` on the action. -/
def SetSuccessOnAction (action : SemanticAction) : SemanticAction :=
  { action with actionStatus := some "CompletedActionStatus" }

/-- Modelled from the spec (section 3) and the marshal/unmarshal round
trips in `executeCreateDatabaseAction` / `executeDeleteDatabaseAction`:
decoding a generic JSON object into the library's XMLDatabase struct.
String fields decode from JSON strings, a present field of another JSON
type fails the decode (Go's UnmarshalTypeError), absent fields keep the
zero value "".  The nested additional-properties mapping is not exercised
by any claim and decodes to the empty mapping. -/
def decodeStrField (k : String) (fields : List (String × Json)) : Except String String :=
  match jsonField k fields with
  | none => Except.ok ""
  | some (Json.str s) => Except.ok s
  | some _ => Except.error ("json: cannot unmarshal field " ++ k)

/-- Decode a JSON value into an XMLDatabase (see `decodeStrField`). -/
def unmarshalDatabase (j : Json) : Except String XMLDatabase :=
  match j with
  | Json.obj fields =>
    match decodeStrField "@type" fields with
    | Except.error e => Except.error e
    | Except.ok ty =>
      match decodeStrField "identifier" fields with
      | Except.error e => Except.error e
      | Except.ok ident =>
        match decodeStrField "url" fields with
        | Except.error e => Except.error e
        | Except.ok url =>
          match decodeStrField "username" fields with
          | Except.error e => Except.error e
          | Except.ok user =>
            match decodeStrField "password" fields with
            | Except.error e => Except.error e
            | Except.ok pass =>
              Except.ok { type := ty, identifier := ident, url := url
                        , username := user, password := pass
                        , additionalProperty := [] }
  | _ => Except.error "json: cannot unmarshal non-object into XMLDatabase"

/-- The `json.Marshal` / `json.Unmarshal` round trip that
`executeDeleteDatabaseAction` uses to convert `action.Object` into an
XMLDatabase: fields with matching JSON tags carry over. -/
def objectToDatabase (o : SemanticObject) : XMLDatabase :=
  { type := o.type, identifier := o.identifier, url := o.url
  , username := o.username, password := o.password, additionalProperty := [] }

/-! ### BaseX client functions (semantic_api.go lines 315-612)

Each function returns the list of outbound requests it issued together
with its Go return value.  The response it will receive is an explicit
parameter; reading a response body is modelled as always succeeding with
the body the environment supplies. -/

/-- semantic_api.go lines 320-362, `uploadXSLTToBaseX`: open the stylesheet
file (`file` is the `os.Open`/read oracle carrying the streamed contents),
extract the filename after the last slash, and PUT it to
`{base}/rest/{db}/{filename}` with content-type application/xml and basic
auth. -/
def uploadXSLTToBaseX (baseURL username password dbName xsltPath : String)
    (file : Except String String) (resp : HttpResponse) :
    List Event × Except String Unit :=
  match file with
  | Except.error e => ([], Except.error ("failed to open XSLT file: " ++ e))
  | Except.ok contents =>
    let filename := lastComponent xsltPath
    let url := baseURL ++ "/rest/" ++ dbName ++ "/" ++ filename
    let req : HttpRequest :=
      { method := HttpMethod.PUT, url := url
      , contentType := some "application/xml", body := some contents
      , auth := some (username, password) }
    if resp.status ≥ 400 then
      ([Event.basex req],
       Except.error ("BaseX upload failed with status " ++ toString resp.status ++ ": " ++ resp.body))
    else ([Event.basex req], Except.ok ())

/-- semantic_api.go lines 364-399, `executeXQuery`: wrap the query in the
BaseX REST envelope and POST it to `{base}/rest/{db}` with content-type
application/xml; on a response below 400 the raw response body is the
result. -/
def executeXQuery (baseURL username password dbName query : String)
    (resp : HttpResponse) : HttpRequest × Except String String :=
  let url := baseURL ++ "/rest/" ++ dbName
  let queryXML :=
    "<query xmlns=\"http://basex.org/rest\"><text><![CDATA[" ++ query ++ "]]></text></query>"
  let req : HttpRequest :=
    { method := HttpMethod.POST, url := url
    , contentType := some "application/xml", body := some queryXML
    , auth := some (username, password) }
  if resp.status ≥ 400 then
    (req, Except.error ("BaseX query failed with status " ++ toString resp.status ++ ": " ++ resp.body))
  else (req, Except.ok resp.body)

/-- The JSON-LD unwrapping step of `uploadFileToBaseX` (semantic_api.go
lines 410-422): when the file parses as a JSON object whose `result` key
holds a string, that string is the payload; `none` otherwise. -/
def wrappedResult (f : FileContent) : Option String :=
  match f.parsed with
  | some (Json.obj fields) =>
    match jsonField "result" fields with
    | some (Json.str s) => some s
    | _ => none
  | _ => none

/-- semantic_api.go lines 401-446, `uploadFileToBaseX`: read the file
(`file` is the `os.ReadFile` oracle), substitute an embedded JSON-LD
`result` string when present, and PUT the payload to
`{base}/rest/{db}/{targetPath}` with content-type application/xml. -/
def uploadFileToBaseX (baseURL username password dbName : String)
    (file : Except String FileContent) (targetPath : String)
    (resp : HttpResponse) : List Event × Except String Unit :=
  match file with
  | Except.error e => ([], Except.error ("failed to read file: " ++ e))
  | Except.ok f =>
    let dataToUpload := (wrappedResult f).getD f.raw
    let url := baseURL ++ "/rest/" ++ dbName ++ "/" ++ targetPath
    let req : HttpRequest :=
      { method := HttpMethod.PUT, url := url
      , contentType := some "application/xml", body := some dataToUpload
      , auth := some (username, password) }
    if resp.status ≥ 400 then
      ([Event.basex req],
       Except.error ("BaseX upload failed with status " ++ toString resp.status ++ ": " ++ resp.body))
    else ([Event.basex req], Except.ok ())

/-- semantic_api.go lines 448-473, `createBaseXDatabase`: PUT
`{base}/rest/{db}` with an empty body. -/
def createBaseXDatabase (baseURL username password dbName : String)
    (resp : HttpResponse) : HttpRequest × Except String Unit :=
  let url := baseURL ++ "/rest/" ++ dbName
  let req : HttpRequest :=
    { method := HttpMethod.PUT, url := url, contentType := none, body := none
    , auth := some (username, password) }
  if resp.status ≥ 400 then
    (req, Except.error ("BaseX create database failed with status " ++ toString resp.status ++ ": " ++ resp.body))
  else (req, Except.ok ())

/-- semantic_api.go lines 560-585, `deleteBaseXDatabase`: DELETE
`{base}/rest/{db}`. -/
def deleteBaseXDatabase (baseURL username password dbName : String)
    (resp : HttpResponse) : HttpRequest × Except String Unit :=
  let url := baseURL ++ "/rest/" ++ dbName
  let req : HttpRequest :=
    { method := HttpMethod.DELETE, url := url, contentType := none, body := none
    , auth := some (username, password) }
  if resp.status ≥ 400 then
    (req, Except.error ("BaseX delete database failed with status " ++ toString resp.status ++ ": " ++ resp.body))
  else (req, Except.ok ())

/-- semantic_api.go lines 587-612, `deleteBaseXDocument`: DELETE
`{base}/rest/{db}/{resource}`. -/
def deleteBaseXDocument (baseURL username password dbName docPath : String)
    (resp : HttpResponse) : HttpRequest × Except String Unit :=
  let url := baseURL ++ "/rest/" ++ dbName ++ "/" ++ docPath
  let req : HttpRequest :=
    { method := HttpMethod.DELETE, url := url, contentType := none, body := none
    , auth := some (username, password) }
  if resp.status ≥ 400 then
    (req, Except.error ("BaseX delete document failed with status " ++ toString resp.status ++ ": " ++ resp.body))
  else (req, Except.ok ())

/-- semantic_api.go lines 475-558, `downloadFromS3`: parse the
`s3://bucket/key` reference (rejecting it before any network call when the
trimmed remainder has no slash), read the object-store configuration from
the environment with its defaults, stage the download at
`/tmp/{Base(key)}`, POST the DownloadAction to the s3service gateway, and
treat the call as failed on a status of 400 or above, an undecodable
response body, or a string `actionStatus` different from
CompletedActionStatus. -/
def downloadFromS3 (env : Env) (s3URL : String) (encodingFormat : String) :
    List Event × Except String String :=
  let trimmed := trimS3Prefix s3URL
  match splitFirstSlash trimmed with
  | none => ([], Except.error "invalid S3 URL format, expected s3://bucket/key")
  | some (bucket, key) =>
    let s3URLEnv := if env.hetznerS3URL = "" then "https://fsn1.your-objectstorage.com" else env.hetznerS3URL
    let region := if env.hetznerS3Region = "" then "fsn1" else env.hetznerS3Region
    let accessKey := env.hetznerS3AccessKey
    let secretKey := env.hetznerS3SecretKey
    let downloadPath := "/tmp/" ++ goFilepathBase key
    let downloadAction : Json := Json.obj
      [ ("@context", Json.str "https://schema.org")
      , ("@type", Json.str "DownloadAction")
      , ("object", Json.obj
          [ ("@type", Json.str "MediaObject")
          , ("identifier", Json.str key)
          , ("encodingFormat", Json.str encodingFormat)
          , ("contentUrl", Json.str downloadPath) ])
      , ("target", Json.obj
          [ ("@type", Json.str "DataCatalog")
          , ("identifier", Json.str bucket)
          , ("url", Json.str s3URLEnv)
          , ("additionalProperty", Json.obj
              [ ("region", Json.str region)
              , ("accessKey", Json.str accessKey)
              , ("secretKey", Json.str secretKey) ]) ]) ]
    let s3ServiceURL := if env.s3ServiceURL = "" then "http://localhost:8092" else env.s3ServiceURL
    let ev := Event.s3
      { url := s3ServiceURL ++ "/v1/api/semantic/action"
      , contentType := "application/ld+json", action := downloadAction }
    if env.s3Resp.status ≥ 400 then
      ([ev], Except.error ("s3service returned status " ++ toString env.s3Resp.status ++ ": " ++ env.s3Resp.body))
    else
      match env.s3Json with
      | Except.error e => ([ev], Except.error ("failed to parse s3service response: " ++ e))
      | Except.ok fields =>
        match jsonField "actionStatus" fields with
        | some (Json.str status) =>
          if status ≠ "CompletedActionStatus" then
            ([ev], Except.error ("s3service download failed with status: " ++ status))
          else ([ev], Except.ok downloadPath)
        | _ => ([ev], Except.ok downloadPath)

/-! ### Handler routines (semantic_api.go lines 18-313) -/

/-- Success return shared by every handler: `semantic.SetSuccessOnAction`
followed by `c.JSON(http.StatusOK, action)`. -/
def successResult (action : SemanticAction) (trace : List Event) : HandlerResult :=
  { httpStatus := 200, action := SetSuccessOnAction action, trace := trace }

/-- semantic_api.go lines 59-95, `executeTransformActionImpl`: extract the
stylesheet and database, resolve credentials, resolve the stylesheet path
with the contentUrl-then-codeRepository fallback, upload the stylesheet,
and mark success.  The transformation itself is left as a TODO in the
source. -/
def executeTransformActionImpl (action : SemanticAction) (env : Env) : HandlerResult :=
  match env.xslt with
  | Except.error e => ReturnActionError action "Failed to extract XSLT stylesheet" (some e) []
  | Except.ok xslt =>
    match env.database with
    | Except.error e => ReturnActionError action "Failed to extract XML database" (some e) []
    | Except.ok database =>
      match ExtractDatabaseCredentials (some database) with
      | Except.error e => ReturnActionError action "Failed to extract database credentials" (some e) []
      | Except.ok (baseURL, username, password) =>
        let xsltPath := if xslt.contentUrl = "" then xslt.codeRepository else xslt.contentUrl
        if xsltPath = "" then
          ReturnActionError action "XSLT stylesheet path required" none []
        else
          let call := uploadXSLTToBaseX baseURL username password database.identifier xsltPath env.xsltFile env.basexResp
          match call.2 with
          | Except.error e => ReturnActionError action "Failed to upload XSLT" (some e) call.1
          | Except.ok _ => successResult action call.1

/-- semantic_api.go lines 97-131, `executeQueryActionImpl`: extract the
query text and database, resolve credentials, run the query, attach the
raw XML result as a Dataset, and mark success. -/
def executeQueryActionImpl (action : SemanticAction) (env : Env) : HandlerResult :=
  let query := env.query
  if query = "" then ReturnActionError action "Query is required" none []
  else
    match env.database with
    | Except.error e => ReturnActionError action "Failed to extract database" (some e) []
    | Except.ok database =>
      match ExtractDatabaseCredentials (some database) with
      | Except.error e => ReturnActionError action "Failed to extract database credentials" (some e) []
      | Except.ok (baseURL, username, password) =>
        let call := executeXQuery baseURL username password database.identifier query env.basexResp
        match call.2 with
        | Except.error e => ReturnActionError action "Failed to execute query" (some e) [Event.basex call.1]
        | Except.ok result =>
          successResult
            { action with result := some { type := "Dataset", format := "application/xml", output := result } }
            [Event.basex call.1]

/-- semantic_api.go lines 133-187, `executeUploadAction`: extract the
document and database, resolve credentials, require a content location,
stage the file through the object store when the location is an `s3://`
reference (with a deferred removal of the staged copy), pick the target
path, and upload to BaseX. -/
def executeUploadAction (action : SemanticAction) (env : Env) : HandlerResult :=
  match env.xmlDoc with
  | Except.error e => ReturnActionError action "Failed to extract XML document" (some e) []
  | Except.ok xmlDoc =>
    match env.database with
    | Except.error e => ReturnActionError action "Failed to extract database" (some e) []
    | Except.ok database =>
      match ExtractDatabaseCredentials (some database) with
      | Except.error e => ReturnActionError action "Failed to extract database credentials" (some e) []
      | Except.ok (baseURL, username, password) =>
        let filePath := xmlDoc.contentUrl
        if filePath = "" then
          ReturnActionError action "Document contentUrl is required" none []
        else if startsWithS3 filePath then
          let dl := downloadFromS3 env filePath xmlDoc.encodingFormat
          match dl.2 with
          | Except.error e => ReturnActionError action "Failed to download from S3" (some e) dl.1
          | Except.ok downloadedPath =>
            let targetPath := if env.targetUrl = "" then xmlDoc.identifier else env.targetUrl
            let call := uploadFileToBaseX baseURL username password database.identifier env.uploadFile targetPath env.basexResp
            match call.2 with
            | Except.error e =>
              ReturnActionError action "Failed to upload file" (some e)
                (dl.1 ++ call.1 ++ [Event.removeFile downloadedPath])
            | Except.ok _ =>
              successResult action (dl.1 ++ call.1 ++ [Event.removeFile downloadedPath])
        else
          let targetPath := if env.targetUrl = "" then xmlDoc.identifier else env.targetUrl
          let call := uploadFileToBaseX baseURL username password database.identifier env.uploadFile targetPath env.basexResp
          match call.2 with
          | Except.error e => ReturnActionError action "Failed to upload file" (some e) call.1
          | Except.ok _ => successResult action call.1

/-- The database-resolution prefix of `executeCreateDatabaseAction`
(semantic_api.go lines 191-205): the `result` property, when present as a
JSON object, is unmarshalled into an XMLDatabase; a present non-object
value leaves the database nil.  (The in-process `*XMLDatabase` case of the
Go type switch cannot arise from a parsed JSON body.) -/
def resolveCreateDatabase (action : SemanticAction) : Except String (Option XMLDatabase) :=
  match jsonField "result" action.properties with
  | some (Json.obj fields) =>
    match unmarshalDatabase (Json.obj fields) with
    | Except.error e => Except.error e
    | Except.ok d => Except.ok (some d)
  | _ => Except.ok none

/-- semantic_api.go lines 189-224, `executeCreateDatabaseAction`: resolve
the database from the `result` property, resolve credentials, and create
the database via `PUT {base}/rest/{db}`. -/
def executeCreateDatabaseAction (action : SemanticAction) (env : Env) : HandlerResult :=
  match resolveCreateDatabase action with
  | Except.error e => ReturnActionError action "Failed to parse database" (some e) []
  | Except.ok none => ReturnActionError action "Database result is required" none []
  | Except.ok (some database) =>
    match ExtractDatabaseCredentials (some database) with
    | Except.error e => ReturnActionError action "Failed to extract database credentials" (some e) []
    | Except.ok (baseURL, username, password) =>
      let call := createBaseXDatabase baseURL username password database.identifier env.basexResp
      match call.2 with
      | Except.error e => ReturnActionError action "Failed to create database" (some e) [Event.basex call.1]
      | Except.ok _ => successResult action [Event.basex call.1]

/-- The database-resolution prefix of `executeDeleteDatabaseAction`
(semantic_api.go lines 228-257): first the embedded object when its type
is Database and it converts with a non-empty identifier, then the `result`
property as in the create handler. -/
def resolveDeleteDatabase (action : SemanticAction) : Except String (Option XMLDatabase) :=
  let fromObject : Option XMLDatabase :=
    match action.object with
    | some o =>
      if o.type = "Database" then
        let d := objectToDatabase o
        if d.identifier ≠ "" then some d else none
      else none
    | none => none
  match fromObject with
  | some d => Except.ok (some d)
  | none => resolveCreateDatabase action

/-- semantic_api.go lines 226-276, `executeDeleteDatabaseAction`: resolve
the database from the object or the `result` property, resolve
credentials, and delete the database via `DELETE {base}/rest/{db}`. -/
def executeDeleteDatabaseAction (action : SemanticAction) (env : Env) : HandlerResult :=
  match resolveDeleteDatabase action with
  | Except.error e => ReturnActionError action "Failed to parse database" (some e) []
  | Except.ok none => ReturnActionError action "Database object or result is required" none []
  | Except.ok (some database) =>
    match ExtractDatabaseCredentials (some database) with
    | Except.error e => ReturnActionError action "Failed to extract database credentials" (some e) []
    | Except.ok (baseURL, username, password) =>
      let call := deleteBaseXDatabase baseURL username password database.identifier env.basexResp
      match call.2 with
      | Except.error e => ReturnActionError action "Failed to delete database" (some e) [Event.basex call.1]
      | Except.ok _ => successResult action [Event.basex call.1]

/-- The path-resolution step of `executeDeleteDocumentAction`
(semantic_api.go lines 297-301): identifier first, contentUrl as the
fallback. -/
def documentPath (d : SemanticObject) : String :=
  if d.identifier = "" then d.contentUrl else d.identifier

/-- semantic_api.go lines 278-313, `executeDeleteDocumentAction`: extract
the document and database, resolve credentials, resolve the document path,
and delete the resource via `DELETE {base}/rest/{db}/{resource}`. -/
def executeDeleteDocumentAction (action : SemanticAction) (env : Env) : HandlerResult :=
  match env.xmlDoc with
  | Except.error e => ReturnActionError action "Failed to extract XML document" (some e) []
  | Except.ok xmlDoc =>
    match env.database with
    | Except.error e => ReturnActionError action "Failed to extract database" (some e) []
    | Except.ok database =>
      match ExtractDatabaseCredentials (some database) with
      | Except.error e => ReturnActionError action "Failed to extract database credentials" (some e) []
      | Except.ok (baseURL, username, password) =>
        let docPath := documentPath xmlDoc
        if docPath = "" then
          ReturnActionError action "Document identifier or contentUrl is required" none []
        else
          let call := deleteBaseXDocument baseURL username password database.identifier docPath env.basexResp
          match call.2 with
          | Except.error e => ReturnActionError action "Failed to delete document" (some e) [Event.basex call.1]
          | Except.ok _ => successResult action [Event.basex call.1]

/-- semantic_api.go lines 37-46, `handleCreateActionImpl`: CreateAction
routes to the upload handler when the embedded object is a
DigitalDocument, and to the create-database handler otherwise. -/
def handleCreateActionImpl (action : SemanticAction) (env : Env) : HandlerResult :=
  match action.object with
  | some o =>
    if o.type = "DigitalDocument" then executeUploadAction action env
    else executeCreateDatabaseAction action env
  | none => executeCreateDatabaseAction action env

/-- semantic_api.go lines 48-57, `handleDeleteActionImpl`: DeleteAction
routes to the delete-document handler when the embedded object is a
DigitalDocument, and to the delete-database handler otherwise. -/
def handleDeleteActionImpl (action : SemanticAction) (env : Env) : HandlerResult :=
  match action.object with
  | some o =>
    if o.type = "DigitalDocument" then executeDeleteDocumentAction action env
    else executeDeleteDatabaseAction action env
  | none => executeDeleteDatabaseAction action env

/-! ### Dispatch and the semantic endpoint -/

/-- The action types with a registered handler (spec section 4.4). -/
def recognizedActionTypes : List String :=
  ["UpdateAction", "TransformAction", "SearchAction", "CreateAction", "DeleteAction", "UploadAction"]

/-- The response of the semantic endpoint: either a handler ran, or an
echo HTTP error was produced before any handler ran. -/
inductive ServiceResponse where
  | handled (r : HandlerResult)
  | httpError (status : Nat) (message : String)

/-- Modelled from the spec (section 4.4): `semantic.Handle` with the
ActionRegistry dispatch table.  Handler registration happens inside the
eve semantic library at startup (not under src/); the wrapper functions at
semantic_api.go lines 617-661 bind exactly these handlers. -/
def Handle (action : SemanticAction) (env : Env) : ServiceResponse :=
  if action.type = "UpdateAction" ∨ action.type = "TransformAction" then
    ServiceResponse.handled (executeTransformActionImpl action env)
  else if action.type = "SearchAction" then
    ServiceResponse.handled (executeQueryActionImpl action env)
  else if action.type = "CreateAction" then
    ServiceResponse.handled (handleCreateActionImpl action env)
  else if action.type = "DeleteAction" then
    ServiceResponse.handled (handleDeleteActionImpl action env)
  else if action.type = "UploadAction" then
    ServiceResponse.handled (executeUploadAction action env)
  else ServiceResponse.httpError 400 ("Unsupported action type: " ++ action.type)

/-- semantic_api.go lines 18-35, `handleSemanticAction`: read and parse
the body (`parsed` is the oracle for `io.ReadAll` plus
`semantic.ParseSemanticAction`, whose failure produces the 400), then
dispatch through the registry. -/
def handleSemanticAction (parsed : Except String SemanticAction) (env : Env) : ServiceResponse :=
  match parsed with
  | Except.error e => ServiceResponse.httpError 400 ("Failed to parse action: " ++ e)
  | Except.ok action => Handle action env

/-! ### The common handler contract -/

/-- The response-shaping contract every handler obeys: the echoed action
carries exactly one of the two action statuses, a failed action carries a
non-empty error description, the outer HTTP status is 200, and the type
and identifier of the inbound action are echoed unchanged. -/
def HandlerContract (action : SemanticAction) (r : HandlerResult) : Prop :=
  (r.action.actionStatus = some "CompletedActionStatus" ∨
     r.action.actionStatus = some "FailedActionStatus")
  ∧ (r.action.actionStatus = some "FailedActionStatus" →
       ∃ e, r.action.error = some e ∧ e ≠ "")
  ∧ r.httpStatus = 200
  ∧ r.action.type = action.type
  ∧ r.action.identifier = action.identifier

theorem str_append_ne_empty (s t : String) (h : s ≠ "") : s ++ t ≠ "" := by
  intro heq
  apply h
  cases s with
  | mk ds =>
    cases t with
    | mk dt =>
      have hd : ds ++ dt = [] := by
        have := congrArg String.data heq
        simpa [String.data] using this
      rcases List.append_eq_nil.mp hd with ⟨h1, _⟩
      simp [h1]

theorem contract_of_error (action : SemanticAction) (msg : String)
    (cause : Option String) (tr : List Event) (h : msg ≠ "") :
    HandlerContract action (ReturnActionError action msg cause tr) := by
  refine ⟨Or.inr rfl, fun _ => ⟨_, rfl, str_append_ne_empty _ _ h⟩, rfl, rfl, rfl⟩

theorem contract_of_success (action b : SemanticAction) (tr : List Event)
    (hty : b.type = action.type) (hid : b.identifier = action.identifier) :
    HandlerContract action (successResult b tr) := by
  refine ⟨Or.inl rfl, fun hc => ?_, rfl, hty, hid⟩
  simp [successResult, SetSuccessOnAction] at hc

theorem executeTransformActionImpl_contract (action : SemanticAction) (env : Env) :
    HandlerContract action (executeTransformActionImpl action env) := by
  unfold executeTransformActionImpl
  try dsimp only
  repeat' split
  all_goals first
    | (apply contract_of_error; decide)
    | exact contract_of_success _ _ _ rfl rfl

theorem executeQueryActionImpl_contract (action : SemanticAction) (env : Env) :
    HandlerContract action (executeQueryActionImpl action env) := by
  unfold executeQueryActionImpl
  try dsimp only
  repeat' split
  all_goals first
    | (apply contract_of_error; decide)
    | exact contract_of_success _ _ _ rfl rfl

theorem executeUploadAction_contract (action : SemanticAction) (env : Env) :
    HandlerContract action (executeUploadAction action env) := by
  unfold executeUploadAction
  try dsimp only
  repeat' split
  all_goals first
    | (apply contract_of_error; decide)
    | exact contract_of_success _ _ _ rfl rfl

theorem executeCreateDatabaseAction_contract (action : SemanticAction) (env : Env) :
    HandlerContract action (executeCreateDatabaseAction action env) := by
  unfold executeCreateDatabaseAction
  try dsimp only
  repeat' split
  all_goals first
    | (apply contract_of_error; decide)
    | exact contract_of_success _ _ _ rfl rfl

theorem executeDeleteDatabaseAction_contract (action : SemanticAction) (env : Env) :
    HandlerContract action (executeDeleteDatabaseAction action env) := by
  unfold executeDeleteDatabaseAction
  try dsimp only
  repeat' split
  all_goals first
    | (apply contract_of_error; decide)
    | exact contract_of_success _ _ _ rfl rfl

theorem executeDeleteDocumentAction_contract (action : SemanticAction) (env : Env) :
    HandlerContract action (executeDeleteDocumentAction action env) := by
  unfold executeDeleteDocumentAction
  try dsimp only
  repeat' split
  all_goals first
    | (apply contract_of_error; decide)
    | exact contract_of_success _ _ _ rfl rfl

theorem handleCreateActionImpl_contract (action : SemanticAction) (env : Env) :
    HandlerContract action (handleCreateActionImpl action env) := by
  unfold handleCreateActionImpl
  repeat' split
  all_goals first
    | exact executeUploadAction_contract action env
    | exact executeCreateDatabaseAction_contract action env

theorem handleDeleteActionImpl_contract (action : SemanticAction) (env : Env) :
    HandlerContract action (handleDeleteActionImpl action env) := by
  unfold handleDeleteActionImpl
  repeat' split
  all_goals first
    | exact executeDeleteDocumentAction_contract action env
    | exact executeDeleteDatabaseAction_contract action env

/-- Case analysis of the dispatch table: a handled result obeys the
handler contract, an HTTP error is a 400 for an unrecognized type, and
every recognized type is handled. -/
theorem handle_spec (action : SemanticAction) (env : Env) :
    (∀ r, Handle action env = ServiceResponse.handled r → HandlerContract action r)
    ∧ (∀ s m, Handle action env = ServiceResponse.httpError s m →
        s = 400 ∧ action.type ∉ recognizedActionTypes)
    ∧ (action.type ∈ recognizedActionTypes →
        ∃ r, Handle action env = ServiceResponse.handled r) := by
  unfold Handle
  split
  case _ h =>
    refine ⟨?_, ?_, ?_⟩
    · intro r hr
      cases hr
      exact executeTransformActionImpl_contract action env
    · intro s m hm
      exact ServiceResponse.noConfusion hm
    · intro _
      exact ⟨_, rfl⟩
  case _ h =>
    split
    case _ h2 =>
      refine ⟨?_, ?_, ?_⟩
      · intro r hr
        cases hr
        exact executeQueryActionImpl_contract action env
      · intro s m hm
        exact ServiceResponse.noConfusion hm
      · intro _
        exact ⟨_, rfl⟩
    case _ h2 =>
      split
      case _ h3 =>
        refine ⟨?_, ?_, ?_⟩
        · intro r hr
          cases hr
          exact handleCreateActionImpl_contract action env
        · intro s m hm
          exact ServiceResponse.noConfusion hm
        · intro _
          exact ⟨_, rfl⟩
      case _ h3 =>
        split
        case _ h4 =>
          refine ⟨?_, ?_, ?_⟩
          · intro r hr
            cases hr
            exact handleDeleteActionImpl_contract action env
          · intro s m hm
            exact ServiceResponse.noConfusion hm
          · intro _
            exact ⟨_, rfl⟩
        case _ h4 =>
          split
          case _ h5 =>
            refine ⟨?_, ?_, ?_⟩
            · intro r hr
              cases hr
              exact executeUploadAction_contract action env
            · intro s m hm
              exact ServiceResponse.noConfusion hm
            · intro _
              exact ⟨_, rfl⟩
          case _ h5 =>
            refine ⟨?_, ?_, ?_⟩
            · intro r hr
              exact ServiceResponse.noConfusion hr
            · intro s m hm
              cases hm
              refine ⟨rfl, fun hmem => ?_⟩
              simp [recognizedActionTypes] at hmem
              rcases hmem with h6 | h6 | h6 | h6 | h6 | h6 <;> simp_all
            · intro hmem
              exfalso
              simp [recognizedActionTypes] at hmem
              rcases hmem with h6 | h6 | h6 | h6 | h6 | h6 <;> simp_all

/-! ### Concrete instances for the witnesses -/

/-- A concrete database target with resolvable credentials. -/
def dbSample : XMLDatabase :=
  { type := "Database", identifier := "factbook", url := "http://localhost:8984"
  , username := "admin", password := "admin", additionalProperty := [] }

/-- A concrete stylesheet object. -/
def xsltSample : SemanticObject :=
  { type := "XSLTStylesheet", identifier := "style", contentUrl := "/data/style.xsl"
  , encodingFormat := "", codeRepository := "/repo/style.xsl", url := ""
  , username := "", password := "" }

/-- A concrete document object with a local content location. -/
def docSample : SemanticObject :=
  { type := "DigitalDocument", identifier := "doc.xml", contentUrl := "/data/doc.xml"
  , encodingFormat := "application/xml", codeRepository := "", url := ""
  , username := "", password := "" }

/-- A concrete oracle environment in which every external step succeeds. -/
def envSample : Env :=
  { xslt := Except.ok xsltSample
  , database := Except.ok dbSample
  , xmlDoc := Except.ok docSample
  , query := "//country"
  , targetUrl := ""
  , xsltFile := Except.ok "<stylesheet/>"
  , uploadFile := Except.ok { raw := "<a/>", parsed := none }
  , basexResp := { status := 200, body := "<result/>" }
  , s3Resp := { status := 200, body := "" }
  , s3Json := Except.ok [("actionStatus", Json.str "CompletedActionStatus")]
  , hetznerS3URL := "", hetznerS3Region := "", hetznerS3AccessKey := ""
  , hetznerS3SecretKey := "", s3ServiceURL := "" }

/-- A concrete SearchAction. -/
def actionSample : SemanticAction :=
  { type := "SearchAction", identifier := "q-1", object := none, properties := []
  , actionStatus := none, error := none, result := none }

/-! ### Claims -/

/-- C1: for every inbound JSON-LD action with a recognized type that
reaches a handler, the response document carries exactly one of
CompletedActionStatus / FailedActionStatus, and a FailedActionStatus
response carries a non-empty error description. -/
theorem claim1_action_status_invariant (action : SemanticAction) (env : Env)
    (h : action.type ∈ recognizedActionTypes) :
    ∃ r, Handle action env = ServiceResponse.handled r
      ∧ (r.action.actionStatus = some "CompletedActionStatus" ∨
           r.action.actionStatus = some "FailedActionStatus")
      ∧ (r.action.actionStatus = some "FailedActionStatus" →
           ∃ e, r.action.error = some e ∧ e ≠ "") := by
  obtain ⟨r, hr⟩ := (handle_spec action env).2.2 h
  obtain ⟨h1, h2, _⟩ := (handle_spec action env).1 r hr
  exact ⟨r, hr, h1, h2⟩

/-- Witness for C1 at a concrete SearchAction. -/
theorem claim1_action_status_invariant_witness :
    actionSample.type ∈ recognizedActionTypes ∧
    ∃ r, Handle actionSample envSample = ServiceResponse.handled r
      ∧ (r.action.actionStatus = some "CompletedActionStatus" ∨
           r.action.actionStatus = some "FailedActionStatus")
      ∧ (r.action.actionStatus = some "FailedActionStatus" →
           ∃ e, r.action.error = some e ∧ e ≠ "") :=
  ⟨by decide, claim1_action_status_invariant actionSample envSample (by decide)⟩

/-- C2: a request that reaches a handler always gets HTTP 200 back (with a
FailedActionStatus document carrying a non-empty error description when the
handler failed), and 4xx statuses arise only from parse failures or
unrecognized action types, which never reach a handler. -/
theorem claim2_http_status_discipline (parsed : Except String SemanticAction) (env : Env) :
    (∀ r, handleSemanticAction parsed env = ServiceResponse.handled r →
        r.httpStatus = 200
        ∧ (r.action.actionStatus = some "FailedActionStatus" →
             ∃ e, r.action.error = some e ∧ e ≠ ""))
    ∧ (∀ s m, handleSemanticAction parsed env = ServiceResponse.httpError s m →
        s = 400 ∧ ∀ action, parsed = Except.ok action →
          action.type ∉ recognizedActionTypes) := by
  cases parsed with
  | error e =>
    refine ⟨?_, ?_⟩
    · intro r hr
      unfold handleSemanticAction at hr
      exact ServiceResponse.noConfusion hr
    · intro s m hm
      unfold handleSemanticAction at hm
      cases hm
      exact ⟨rfl, fun action ha => Except.noConfusion ha⟩
  | ok action =>
    refine ⟨?_, ?_⟩
    · intro r hr
      unfold handleSemanticAction at hr
      obtain ⟨_, h2, h3, _⟩ := (handle_spec action env).1 r hr
      exact ⟨h3, h2⟩
    · intro s m hm
      unfold handleSemanticAction at hm
      obtain ⟨h1, h2⟩ := (handle_spec action env).2.1 s m hm
      refine ⟨h1, fun action2 ha => ?_⟩
      cases ha
      exact h2

/-! ### Request-shape lemmas for the client functions -/

theorem createBaseXDatabase_req (b u p dbn : String) (resp : HttpResponse) :
    (createBaseXDatabase b u p dbn resp).1
      = { method := HttpMethod.PUT, url := b ++ "/rest/" ++ dbn
        , contentType := none, body := none, auth := some (u, p) } := by
  simp only [createBaseXDatabase]
  split <;> rfl

theorem deleteBaseXDatabase_req (b u p dbn : String) (resp : HttpResponse) :
    (deleteBaseXDatabase b u p dbn resp).1
      = { method := HttpMethod.DELETE, url := b ++ "/rest/" ++ dbn
        , contentType := none, body := none, auth := some (u, p) } := by
  simp only [deleteBaseXDatabase]
  split <;> rfl

theorem deleteBaseXDocument_req (b u p dbn path : String) (resp : HttpResponse) :
    (deleteBaseXDocument b u p dbn path resp).1
      = { method := HttpMethod.DELETE, url := b ++ "/rest/" ++ dbn ++ "/" ++ path
        , contentType := none, body := none, auth := some (u, p) } := by
  simp only [deleteBaseXDocument]
  split <;> rfl

theorem uploadXSLTToBaseX_req (b u p dbn path contents : String) (resp : HttpResponse) :
    (uploadXSLTToBaseX b u p dbn path (Except.ok contents) resp).1
      = [Event.basex
          { method := HttpMethod.PUT
          , url := b ++ "/rest/" ++ dbn ++ "/" ++ lastComponent path
          , contentType := some "application/xml", body := some contents
          , auth := some (u, p) }] := by
  simp only [uploadXSLTToBaseX]
  split <;> rfl

theorem uploadFileToBaseX_req (b u p dbn : String) (f : FileContent)
    (target : String) (resp : HttpResponse) :
    (uploadFileToBaseX b u p dbn (Except.ok f) target resp).1
      = [Event.basex
          { method := HttpMethod.PUT
          , url := b ++ "/rest/" ++ dbn ++ "/" ++ target
          , contentType := some "application/xml"
          , body := some ((wrappedResult f).getD f.raw)
          , auth := some (u, p) }] := by
  simp only [uploadFileToBaseX]
  split <;> rfl

/-- Witness for C2 at a concrete handled SearchAction. -/
theorem claim2_http_status_discipline_witness :
    handleSemanticAction (Except.ok actionSample) envSample
        = ServiceResponse.handled (executeQueryActionImpl actionSample envSample)
    ∧ (executeQueryActionImpl actionSample envSample).httpStatus = 200 :=
  ⟨rfl, ((claim2_http_status_discipline (Except.ok actionSample) envSample).1
      (executeQueryActionImpl actionSample envSample) rfl).1⟩

/-! ### Claim C3: CreateAction routing -/

/-- A Database-typed embedded object (the shape produced by the REST
adapter in rest_handlers.go, createDatabaseREST). -/
def dbObjSample : SemanticObject :=
  { type := "Database", identifier := "newdb", contentUrl := ""
  , encodingFormat := "", codeRepository := "", url := "http://localhost:8984"
  , username := "admin", password := "admin" }

/-- A CreateAction whose object is present but typed Database, with a
well-formed result property. -/
def actionCreateDb : SemanticAction :=
  { type := "CreateAction", identifier := "c-1", object := some dbObjSample
  , properties := [("result", Json.obj
      [("identifier", Json.str "newdb"), ("url", Json.str "http://localhost:8984")])]
  , actionStatus := none, error := none, result := none }

/-- An environment in which no document can be extracted (so the upload
handler would fail) but everything else succeeds. -/
def envNoDoc : Env :=
  { envSample with xmlDoc := Except.error "document object missing" }

/-- Counterexample for C3: the claim says a CreateAction with a present
`object` property is routed to the Upload handler.  On this concrete
CreateAction the object is present (typed Database, as the REST
create-database adapter produces), yet the dispatcher runs the
create-database handler: its outcome is the create-database handler's
completed action, while the upload handler on the identical input would
have failed. -/
theorem claim3_counterexample :
    actionCreateDb.object = some dbObjSample
    ∧ handleCreateActionImpl actionCreateDb envNoDoc
        = executeCreateDatabaseAction actionCreateDb envNoDoc
    ∧ (handleCreateActionImpl actionCreateDb envNoDoc).action.actionStatus
        = some "CompletedActionStatus"
    ∧ (executeUploadAction actionCreateDb envNoDoc).action.actionStatus
        = some "FailedActionStatus" :=
  ⟨rfl, rfl, rfl, rfl⟩

/-- C3 (amended): a CreateAction routes to the Upload handler exactly when
its embedded object is present and typed DigitalDocument; with the object
absent or of any other type it routes to the create-database handler. -/
theorem claim3_createaction_routing (action : SemanticAction) (env : Env) :
    (∀ o, action.object = some o → o.type = "DigitalDocument" →
        handleCreateActionImpl action env = executeUploadAction action env)
    ∧ (∀ o, action.object = some o → o.type ≠ "DigitalDocument" →
        handleCreateActionImpl action env = executeCreateDatabaseAction action env)
    ∧ (action.object = none →
        handleCreateActionImpl action env = executeCreateDatabaseAction action env) := by
  refine ⟨?_, ?_, ?_⟩
  · intro o ho hty
    unfold handleCreateActionImpl
    rw [ho]
    simp [hty]
  · intro o ho hty
    unfold handleCreateActionImpl
    rw [ho]
    simp [hty]
  · intro ho
    unfold handleCreateActionImpl
    rw [ho]

/-- A CreateAction carrying a DigitalDocument object. -/
def actionUploadDoc : SemanticAction :=
  { type := "CreateAction", identifier := "u-1", object := some docSample
  , properties := [], actionStatus := none, error := none, result := none }

/-- Witness for the amended C3 at a DigitalDocument-typed object. -/
theorem claim3_createaction_routing_witness :
    actionUploadDoc.object = some docSample
    ∧ docSample.type = "DigitalDocument"
    ∧ handleCreateActionImpl actionUploadDoc envSample
        = executeUploadAction actionUploadDoc envSample :=
  ⟨rfl, rfl, (claim3_createaction_routing actionUploadDoc envSample).1 docSample rfl rfl⟩

/-! ### Claim C4: DeleteAction routing and the DELETE requests -/

/-- C4: a DeleteAction routes to the delete-document handler exactly when
the embedded object is typed DigitalDocument (the document kind) and to the
delete-database handler otherwise; the delete-document handler issues at
most one downstream request, namely `DELETE {base}/rest/{db}/{resource}`,
and the delete-database handler issues at most one downstream request,
namely `DELETE {base}/rest/{db}`, with the exact URLs attained whenever
the extraction and credential phases succeed. -/
theorem claim4_deleteaction_routing (action : SemanticAction) (env : Env) :
    (∀ o, action.object = some o → o.type = "DigitalDocument" →
        handleDeleteActionImpl action env = executeDeleteDocumentAction action env)
    ∧ (∀ o, action.object = some o → o.type ≠ "DigitalDocument" →
        handleDeleteActionImpl action env = executeDeleteDatabaseAction action env)
    ∧ (action.object = none →
        handleDeleteActionImpl action env = executeDeleteDatabaseAction action env)
    ∧ ((executeDeleteDocumentAction action env).trace = []
        ∨ ∃ req, (executeDeleteDocumentAction action env).trace = [Event.basex req]
            ∧ req.method = HttpMethod.DELETE)
    ∧ ((executeDeleteDatabaseAction action env).trace = []
        ∨ ∃ req, (executeDeleteDatabaseAction action env).trace = [Event.basex req]
            ∧ req.method = HttpMethod.DELETE)
    ∧ (∀ d db base u p, env.xmlDoc = Except.ok d → env.database = Except.ok db →
        ExtractDatabaseCredentials (some db) = Except.ok (base, u, p) →
        documentPath d ≠ "" →
        (executeDeleteDocumentAction action env).trace
          = [Event.basex
              { method := HttpMethod.DELETE
              , url := base ++ "/rest/" ++ db.identifier ++ "/" ++ documentPath d
              , contentType := none, body := none, auth := some (u, p) }])
    ∧ (∀ db base u p, resolveDeleteDatabase action = Except.ok (some db) →
        ExtractDatabaseCredentials (some db) = Except.ok (base, u, p) →
        (executeDeleteDatabaseAction action env).trace
          = [Event.basex
              { method := HttpMethod.DELETE
              , url := base ++ "/rest/" ++ db.identifier
              , contentType := none, body := none, auth := some (u, p) }]) := by
  refine ⟨?_, ?_, ?_, ?_, ?_, ?_, ?_⟩
  · intro o ho hty
    unfold handleDeleteActionImpl
    rw [ho]
    simp [hty]
  · intro o ho hty
    unfold handleDeleteActionImpl
    rw [ho]
    simp [hty]
  · intro ho
    unfold handleDeleteActionImpl
    rw [ho]
  · unfold executeDeleteDocumentAction
    try dsimp only
    repeat' split
    all_goals first
      | exact Or.inl rfl
      | exact Or.inr ⟨_, rfl, by rw [deleteBaseXDocument_req]⟩
  · unfold executeDeleteDatabaseAction
    try dsimp only
    repeat' split
    all_goals first
      | exact Or.inl rfl
      | exact Or.inr ⟨_, rfl, by rw [deleteBaseXDatabase_req]⟩
  · intro d db base u p hd hdb hcred hpath
    unfold executeDeleteDocumentAction
    rw [hd, hdb]
    dsimp only
    rw [hcred]
    dsimp only
    rw [if_neg hpath]
    split <;> simp [ReturnActionError, successResult, deleteBaseXDocument_req]
  · intro db base u p hres hcred
    unfold executeDeleteDatabaseAction
    rw [hres]
    dsimp only
    rw [hcred]
    dsimp only
    split <;> simp [ReturnActionError, successResult, deleteBaseXDatabase_req]

/-- A DeleteAction on a DigitalDocument. -/
def actionDeleteDoc : SemanticAction :=
  { type := "DeleteAction", identifier := "d-1", object := some docSample
  , properties := [], actionStatus := none, error := none, result := none }

/-- Witness for C4: a concrete document delete routes to the
delete-document handler and issues exactly the expected DELETE request. -/
theorem claim4_deleteaction_routing_witness :
    actionDeleteDoc.object = some docSample
    ∧ docSample.type = "DigitalDocument"
    ∧ envSample.xmlDoc = Except.ok docSample
    ∧ documentPath docSample ≠ ""
    ∧ handleDeleteActionImpl actionDeleteDoc envSample
        = executeDeleteDocumentAction actionDeleteDoc envSample
    ∧ (executeDeleteDocumentAction actionDeleteDoc envSample).trace
        = [Event.basex
            { method := HttpMethod.DELETE
            , url := "http://localhost:8984" ++ "/rest/" ++ "factbook" ++ "/" ++ "doc.xml"
            , contentType := none, body := none, auth := some ("admin", "admin") }] :=
  ⟨rfl, rfl, rfl, by decide,
   (claim4_deleteaction_routing actionDeleteDoc envSample).1 docSample rfl rfl,
   (claim4_deleteaction_routing actionDeleteDoc envSample).2.2.2.2.2.1 docSample dbSample
     "http://localhost:8984" "admin" "admin" rfl rfl rfl (by decide)⟩

/-! ### Claim C5: the downstream query request -/

/-- Counterexample for C5: the claim fixes the query envelope as
`<query><text><![CDATA[q]]></text></query>`, but the body the code builds
carries an xmlns declaration on the query element. -/
theorem claim5_counterexample :
    (executeXQuery "http://localhost:8984" "admin" "admin" "factbook" "q0"
        { status := 200, body := "r" }).1.body
      ≠ some "<query><text><![CDATA[q0]]></text></query>" := by
  decide

/-- C5 (amended): every query execution issues exactly
`POST {base}/rest/{db}` with content-type application/xml and a body that
wraps the query text in the envelope
`<query xmlns="http://basex.org/rest"><text><![CDATA[q]]></text></query>`,
and a response with status below 400 yields the raw response body verbatim
as the result payload. -/
theorem claim5_query_request (base u p db q : String) (resp : HttpResponse) :
    (executeXQuery base u p db q resp).1.method = HttpMethod.POST
    ∧ (executeXQuery base u p db q resp).1.url = base ++ "/rest/" ++ db
    ∧ (executeXQuery base u p db q resp).1.contentType = some "application/xml"
    ∧ (executeXQuery base u p db q resp).1.body
        = some ("<query xmlns=\"http://basex.org/rest\"><text><![CDATA[" ++ q ++ "]]></text></query>")
    ∧ (resp.status < 400 → (executeXQuery base u p db q resp).2 = Except.ok resp.body) := by
  unfold executeXQuery
  dsimp only
  refine ⟨?_, ?_, ?_, ?_, ?_⟩
  · split <;> rfl
  · split <;> rfl
  · split <;> rfl
  · split <;> rfl
  · intro h
    rw [if_neg (by omega)]

/-- Witness for C5 at a concrete 200 response. -/
theorem claim5_query_request_witness :
    (200 : Nat) < 400
    ∧ (executeXQuery "http://localhost:8984" "admin" "admin" "factbook" "//x"
        { status := 200, body := "<r/>" }).2 = Except.ok "<r/>" :=
  ⟨by decide,
   (claim5_query_request "http://localhost:8984" "admin" "admin" "factbook" "//x"
      { status := 200, body := "<r/>" }).2.2.2.2 (by decide)⟩

/-! ### Claim C6: the upload payload substitution -/

/-- C6: an upload from a local file sends `PUT {base}/rest/{db}/{target}`
whose payload is the embedded `result` string when the file content parses
as a JSON object with a string-valued `result` key, and the raw file bytes
unchanged in every other case. -/
theorem claim6_upload_payload (b u p dbn : String) (f : FileContent)
    (target : String) (resp : HttpResponse) :
    ∃ req, (uploadFileToBaseX b u p dbn (Except.ok f) target resp).1 = [Event.basex req]
      ∧ req.method = HttpMethod.PUT
      ∧ req.url = b ++ "/rest/" ++ dbn ++ "/" ++ target
      ∧ req.contentType = some "application/xml"
      ∧ (∀ fields s, f.parsed = some (Json.obj fields) →
           jsonField "result" fields = some (Json.str s) → req.body = some s)
      ∧ (wrappedResult f = none → req.body = some f.raw) := by
  refine ⟨_, uploadFileToBaseX_req b u p dbn f target resp, rfl, rfl, rfl, ?_, ?_⟩
  · intro fields s hp hl
    simp [wrappedResult, hp, hl]
  · intro hw
    simp [hw]

/-- A file whose content is a JSON-LD wrapper with an embedded result
string. -/
def fileWrapped : FileContent :=
  { raw := "JSON-LD wrapper text"
  , parsed := some (Json.obj [("result", Json.str "<x/>")]) }

/-- Witness for C6: the embedded result string is the payload. -/
theorem claim6_upload_payload_witness :
    fileWrapped.parsed = some (Json.obj [("result", Json.str "<x/>")])
    ∧ jsonField "result" [("result", Json.str "<x/>")] = some (Json.str "<x/>")
    ∧ ∃ req, (uploadFileToBaseX "http://localhost:8984" "admin" "admin" "factbook"
          (Except.ok fileWrapped) "out.xml" { status := 200, body := "" }).1
            = [Event.basex req]
        ∧ req.body = some "<x/>" := by
  obtain ⟨req, h1, _, _, _, h5, _⟩ :=
    claim6_upload_payload "http://localhost:8984" "admin" "admin" "factbook"
      fileWrapped "out.xml" { status := 200, body := "" }
  exact ⟨rfl, rfl, req, h1, h5 _ _ rfl rfl⟩

/-! ### Claim C7: transform handler stages the stylesheet only -/

theorem uploadXSLTToBaseX_trace_shape (b u p dbn path : String)
    (file : Except String String) (resp : HttpResponse) :
    (uploadXSLTToBaseX b u p dbn path file resp).1 = []
    ∨ ∃ req, (uploadXSLTToBaseX b u p dbn path file resp).1 = [Event.basex req]
        ∧ req.method = HttpMethod.PUT := by
  unfold uploadXSLTToBaseX
  try dsimp only
  repeat' split
  all_goals first
    | exact Or.inl rfl
    | exact Or.inr ⟨_, rfl, rfl⟩

/-- C7: the transform handler resolves the stylesheet path with the
two-step fallback (contentUrl first, then codeRepository), fails
terminally with no downstream call when both are empty, uploads the
stylesheet to the target database with a single PUT, and never issues any
other downstream request (in particular no transformation is invoked: the
trace is empty or a single PUT). -/
theorem claim7_transform_staging (action : SemanticAction) (env : Env) :
    ((executeTransformActionImpl action env).trace = []
      ∨ ∃ req, (executeTransformActionImpl action env).trace = [Event.basex req]
          ∧ req.method = HttpMethod.PUT)
    ∧ (∀ xslt db base u p, env.xslt = Except.ok xslt → env.database = Except.ok db →
        ExtractDatabaseCredentials (some db) = Except.ok (base, u, p) →
        (xslt.contentUrl = "" → xslt.codeRepository = "" →
            (executeTransformActionImpl action env).action.actionStatus
              = some "FailedActionStatus"
            ∧ (executeTransformActionImpl action env).trace = [])
        ∧ (∀ contents, env.xsltFile = Except.ok contents →
            (xslt.contentUrl ≠ "" →
              ∃ req, (executeTransformActionImpl action env).trace = [Event.basex req]
                ∧ req.method = HttpMethod.PUT
                ∧ req.url = base ++ "/rest/" ++ db.identifier ++ "/"
                    ++ lastComponent xslt.contentUrl)
            ∧ (xslt.contentUrl = "" → xslt.codeRepository ≠ "" →
              ∃ req, (executeTransformActionImpl action env).trace = [Event.basex req]
                ∧ req.method = HttpMethod.PUT
                ∧ req.url = base ++ "/rest/" ++ db.identifier ++ "/"
                    ++ lastComponent xslt.codeRepository))) := by
  constructor
  · unfold executeTransformActionImpl
    try dsimp only
    repeat' split
    all_goals dsimp only [ReturnActionError, successResult]
    all_goals first
      | exact Or.inl rfl
      | exact uploadXSLTToBaseX_trace_shape _ _ _ _ _ _ _
  · intro xslt db base u p hx hdb hcred
    refine ⟨?_, ?_⟩
    · intro hcu hcr
      unfold executeTransformActionImpl
      rw [hx, hdb]
      dsimp only
      rw [hcred]
      dsimp only
      rw [hcu, hcr]
      simp [ReturnActionError]
    · intro contents hfile
      refine ⟨?_, ?_⟩
      · intro hcu
        unfold executeTransformActionImpl
        rw [hx, hdb]
        dsimp only
        rw [hcred]
        dsimp only
        rw [if_neg hcu, if_neg hcu, hfile]
        split
        all_goals dsimp only [ReturnActionError, successResult]
        all_goals rw [uploadXSLTToBaseX_req]
        all_goals exact ⟨_, rfl, rfl, rfl⟩
      · intro hcu hcr
        unfold executeTransformActionImpl
        rw [hx, hdb]
        dsimp only
        rw [hcred]
        dsimp only
        rw [if_pos hcu, if_neg hcr, hfile]
        split
        all_goals dsimp only [ReturnActionError, successResult]
        all_goals rw [uploadXSLTToBaseX_req]
        all_goals exact ⟨_, rfl, rfl, rfl⟩

/-- An UpdateAction asking for a transform. -/
def actionTransform : SemanticAction :=
  { type := "UpdateAction", identifier := "t-1", object := none
  , properties := [], actionStatus := none, error := none, result := none }

/-- Witness for C7: a concrete transform stages its stylesheet with a
single PUT to the primary content location. -/
theorem claim7_transform_staging_witness :
    envSample.xslt = Except.ok xsltSample
    ∧ xsltSample.contentUrl ≠ ""
    ∧ ∃ req, (executeTransformActionImpl actionTransform envSample).trace
          = [Event.basex req]
        ∧ req.method = HttpMethod.PUT
        ∧ req.url = "http://localhost:8984" ++ "/rest/" ++ "factbook" ++ "/"
            ++ lastComponent "/data/style.xsl" := by
  refine ⟨rfl, by decide, ?_⟩
  exact ((claim7_transform_staging actionTransform envSample).2 xsltSample dbSample
    "http://localhost:8984" "admin" "admin" rfl rfl rfl).2 "<stylesheet/>" rfl
    |>.1 (by decide)

/-! ### Claim C8: S3 staging and guaranteed cleanup -/

theorem uploadFileToBaseX_trace_shape (b u p dbn : String)
    (file : Except String FileContent) (target : String) (resp : HttpResponse) :
    (uploadFileToBaseX b u p dbn file target resp).1 = []
    ∨ ∃ req, (uploadFileToBaseX b u p dbn file target resp).1 = [Event.basex req] := by
  unfold uploadFileToBaseX
  try dsimp only
  repeat' split
  all_goals first
    | exact Or.inl rfl
    | exact Or.inr ⟨_, rfl⟩

theorem downloadFromS3_trace (env : Env) (url fmt bucket key : String)
    (h : splitFirstSlash (trimS3Prefix url) = some (bucket, key)) :
    ∃ s3req, (downloadFromS3 env url fmt).1 = [Event.s3 s3req] := by
  unfold downloadFromS3
  dsimp only
  rw [h]
  dsimp only
  repeat' split
  all_goals exact ⟨_, rfl⟩

/-- C8: for an upload whose content location is a well-formed `s3://`
reference and whose extraction and credential phases succeed, the handler
issues exactly one object-store retrieval call, it precedes any downstream
upload call, and whenever the staging succeeded the staged temporary file
is removed as the last step on every exit path (after the upload attempt,
whether the upload call happened and whether it succeeded or failed). -/
theorem claim8_s3_staging (action : SemanticAction) (env : Env)
    (d : SemanticObject) (db : XMLDatabase) (base u p bucket key : String)
    (hd : env.xmlDoc = Except.ok d) (hdb : env.database = Except.ok db)
    (hcred : ExtractDatabaseCredentials (some db) = Except.ok (base, u, p))
    (hs3 : startsWithS3 d.contentUrl = true)
    (hkey : splitFirstSlash (trimS3Prefix d.contentUrl) = some (bucket, key)) :
    ∃ s3req,
      ((∃ e, (downloadFromS3 env d.contentUrl d.encodingFormat).2 = Except.error e)
        ∧ (executeUploadAction action env).trace = [Event.s3 s3req])
      ∨ (∃ path, (downloadFromS3 env d.contentUrl d.encodingFormat).2 = Except.ok path
          ∧ ((executeUploadAction action env).trace
                = [Event.s3 s3req, Event.removeFile path]
              ∨ ∃ breq, (executeUploadAction action env).trace
                = [Event.s3 s3req, Event.basex breq, Event.removeFile path])) := by
  have hne : ¬ d.contentUrl = "" := by
    intro h0
    rw [h0] at hs3
    exact absurd hs3 (by decide)
  obtain ⟨s3req, htr⟩ := downloadFromS3_trace env d.contentUrl d.encodingFormat bucket key hkey
  refine ⟨s3req, ?_⟩
  unfold executeUploadAction
  rw [hd, hdb]
  dsimp only
  rw [hcred]
  dsimp only
  rw [if_neg hne, if_pos hs3]
  cases hdl : (downloadFromS3 env d.contentUrl d.encodingFormat).2 with
  | error e =>
    dsimp only [ReturnActionError]
    exact Or.inl ⟨⟨e, rfl⟩, htr⟩
  | ok path =>
    dsimp only
    refine Or.inr ⟨path, rfl, ?_⟩
    rcases uploadFileToBaseX_trace_shape base u p db.identifier env.uploadFile
        (if env.targetUrl = "" then d.identifier else env.targetUrl) env.basexResp with
      h0 | ⟨breq, h1⟩
    · split
      all_goals dsimp only [ReturnActionError, successResult]
      all_goals rw [htr, h0]
      all_goals exact Or.inl rfl
    · split
      all_goals dsimp only [ReturnActionError, successResult]
      all_goals rw [htr, h1]
      all_goals exact Or.inr ⟨breq, rfl⟩

/-- A document object whose content location is a well-formed S3
reference. -/
def docS3 : SemanticObject :=
  { docSample with contentUrl := "s3://mybucket/styles/key.xsl" }

/-- An UploadAction on the S3-referenced document. -/
def actionUploadS3 : SemanticAction :=
  { type := "UploadAction", identifier := "s-1", object := some docS3
  , properties := [], actionStatus := none, error := none, result := none }

/-- The environment of the S3 upload: staging and upload both succeed. -/
def envS3 : Env :=
  { envSample with xmlDoc := Except.ok docS3 }

/-- Witness for C8 at a concrete S3 upload whose staging succeeds: the
trace is retrieval, upload, removal, in that order. -/
theorem claim8_s3_staging_witness :
    startsWithS3 docS3.contentUrl = true
    ∧ splitFirstSlash (trimS3Prefix docS3.contentUrl) = some ("mybucket", "styles/key.xsl")
    ∧ ∃ s3req,
      ((∃ e, (downloadFromS3 envS3 docS3.contentUrl docS3.encodingFormat).2 = Except.error e)
        ∧ (executeUploadAction actionUploadS3 envS3).trace = [Event.s3 s3req])
      ∨ (∃ path, (downloadFromS3 envS3 docS3.contentUrl docS3.encodingFormat).2 = Except.ok path
          ∧ ((executeUploadAction actionUploadS3 envS3).trace
                = [Event.s3 s3req, Event.removeFile path]
              ∨ ∃ breq, (executeUploadAction actionUploadS3 envS3).trace
                = [Event.s3 s3req, Event.basex breq, Event.removeFile path])) :=
  ⟨by decide, by decide,
   claim8_s3_staging actionUploadS3 envS3 docS3 dbSample
     "http://localhost:8984" "admin" "admin" "mybucket" "styles/key.xsl"
     rfl rfl rfl (by decide) (by decide)⟩

/-! ### Claim C9: the object-store status check -/

/-- An environment whose object-store response is a 200 with an empty JSON
object body: the `actionStatus` field is absent. -/
def envS3NoStatus : Env :=
  { envSample with xmlDoc := Except.ok docS3, s3Json := Except.ok [] }

/-- Counterexample for C9: the claim says a retrieval response below 400
whose `actionStatus` is absent is treated as failed; the code's
`if status, ok := result["actionStatus"].(string); ok && status != ...`
check skips the comparison entirely when the field is absent or not a
string, so the retrieval is treated as successful. -/
theorem claim9_counterexample :
    envS3NoStatus.s3Resp.status < 400
    ∧ envS3NoStatus.s3Json = Except.ok []
    ∧ jsonField "actionStatus" [] = none
    ∧ (downloadFromS3 envS3NoStatus "s3://bucket/key.xsl" "application/xml").2
        = Except.ok "/tmp/key.xsl" := by
  refine ⟨by decide, rfl, rfl, ?_⟩
  rfl

/-- C9 (amended): for a retrieval response with status below 400 and a
decodable JSON object body, the retrieval fails exactly when the
`actionStatus` field is present as a string different from
CompletedActionStatus; it is treated as successful when the field holds
the completed value, is absent, or is not a string. -/
theorem claim9_s3_status_check (env : Env) (url fmt bucket key : String)
    (fields : List (String × Json))
    (hkey : splitFirstSlash (trimS3Prefix url) = some (bucket, key))
    (hstatus : env.s3Resp.status < 400)
    (hjson : env.s3Json = Except.ok fields) :
    (∀ s, jsonField "actionStatus" fields = some (Json.str s) →
        s ≠ "CompletedActionStatus" →
        ∃ e, (downloadFromS3 env url fmt).2 = Except.error e)
    ∧ (jsonField "actionStatus" fields = some (Json.str "CompletedActionStatus") →
        (downloadFromS3 env url fmt).2 = Except.ok ("/tmp/" ++ goFilepathBase key))
    ∧ (jsonField "actionStatus" fields = none →
        (downloadFromS3 env url fmt).2 = Except.ok ("/tmp/" ++ goFilepathBase key))
    ∧ (∀ j, jsonField "actionStatus" fields = some j → (∀ s, j ≠ Json.str s) →
        (downloadFromS3 env url fmt).2 = Except.ok ("/tmp/" ++ goFilepathBase key)) := by
  unfold downloadFromS3
  dsimp only
  rw [hkey]
  dsimp only
  rw [if_neg (by omega), hjson]
  dsimp only
  refine ⟨?_, ?_, ?_, ?_⟩
  · intro s hs hne
    rw [hs]
    dsimp only
    rw [if_pos hne]
    exact ⟨_, rfl⟩
  · intro hs
    rw [hs]
    dsimp only
    rw [if_neg (by simp)]
  · intro hs
    rw [hs]
  · intro j hj hnstr
    cases j with
    | str s => exact absurd rfl (hnstr s)
    | null => rw [hj]
    | bool b => rw [hj]
    | num n => rw [hj]
    | arr xs => rw [hj]
    | obj fs => rw [hj]

/-- An environment whose object-store response reports a failed action
status. -/
def envS3Failed : Env :=
  { envSample with
    xmlDoc := Except.ok docS3,
    s3Json := Except.ok [("actionStatus", Json.str "FailedActionStatus")] }

/-- Witness for the amended C9: a string status different from the
completed value makes the retrieval fail. -/
theorem claim9_s3_status_check_witness :
    envS3Failed.s3Resp.status < 400
    ∧ jsonField "actionStatus" [("actionStatus", Json.str "FailedActionStatus")]
        = some (Json.str "FailedActionStatus")
    ∧ ∃ e, (downloadFromS3 envS3Failed "s3://bucket/key.xsl" "application/xml").2
        = Except.error e :=
  ⟨by decide, rfl,
   (claim9_s3_status_check envS3Failed "s3://bucket/key.xsl" "application/xml"
      "bucket" "key.xsl" [("actionStatus", Json.str "FailedActionStatus")]
      (by decide) (by decide) rfl).1 "FailedActionStatus" rfl (by decide)⟩

/-! ### Claim C10: malformed S3 reference fails before any call -/

/-- C10: an upload whose content location starts with `s3://` but has no
key segment (no slash after the bucket) fails with the invalid-S3-URL
error before issuing any object-store retrieval or downstream upload
request: the trace is empty. -/
theorem claim10_invalid_s3_url (action : SemanticAction) (env : Env)
    (d : SemanticObject) (db : XMLDatabase) (base u p : String)
    (hd : env.xmlDoc = Except.ok d) (hdb : env.database = Except.ok db)
    (hcred : ExtractDatabaseCredentials (some db) = Except.ok (base, u, p))
    (hs3 : startsWithS3 d.contentUrl = true)
    (hnokey : splitFirstSlash (trimS3Prefix d.contentUrl) = none) :
    (executeUploadAction action env).trace = []
    ∧ (executeUploadAction action env).action.actionStatus = some "FailedActionStatus"
    ∧ (executeUploadAction action env).action.error
        = some ("Failed to download from S3"
            ++ (": " ++ "invalid S3 URL format, expected s3://bucket/key")) := by
  have hne : ¬ d.contentUrl = "" := by
    intro h0
    rw [h0] at hs3
    exact absurd hs3 (by decide)
  have hdl : downloadFromS3 env d.contentUrl d.encodingFormat
      = ([], Except.error "invalid S3 URL format, expected s3://bucket/key") := by
    unfold downloadFromS3
    dsimp only
    rw [hnokey]
  unfold executeUploadAction
  rw [hd, hdb]
  dsimp only
  rw [hcred]
  dsimp only
  rw [if_neg hne, if_pos hs3, hdl]
  exact ⟨rfl, rfl, rfl⟩

/-- A document object whose content location has no key segment. -/
def docS3NoKey : SemanticObject :=
  { docSample with contentUrl := "s3://bucket" }

/-- An UploadAction on the keyless S3 reference, in an otherwise healthy
environment. -/
def actionUploadS3NoKey : SemanticAction :=
  { type := "UploadAction", identifier := "s-2", object := some docS3NoKey
  , properties := [], actionStatus := none, error := none, result := none }

/-- Environment for the keyless S3 upload. -/
def envS3NoKey : Env :=
  { envSample with xmlDoc := Except.ok docS3NoKey }

/-- Witness for C10 at `s3://bucket`. -/
theorem claim10_invalid_s3_url_witness :
    startsWithS3 docS3NoKey.contentUrl = true
    ∧ splitFirstSlash (trimS3Prefix docS3NoKey.contentUrl) = none
    ∧ (executeUploadAction actionUploadS3NoKey envS3NoKey).trace = []
    ∧ (executeUploadAction actionUploadS3NoKey envS3NoKey).action.actionStatus
        = some "FailedActionStatus" := by
  obtain ⟨h1, h2, _⟩ := claim10_invalid_s3_url actionUploadS3NoKey envS3NoKey
    docS3NoKey dbSample "http://localhost:8984" "admin" "admin"
    rfl rfl rfl (by decide) (by decide)
  exact ⟨by decide, by decide, h1, h2⟩

end Basex
